import Mathlib

/-!
Verification development for the Marginal v1 liquidity monitor
(`src/main.py`).  The Python source is shallowly embedded: pure helpers
become Lean functions, the per-block event loop becomes a fold over an
explicit loop state, exceptions (`ZeroDivisionError`, `UnboundLocalError`)
become `Except String`, and the external collaborators (the keccak hash
from `eth_utils`, the pool contract's `positions` / `state` queries, the
Telegram transport) become explicit parameters recorded in a `Pool`
structure or boolean flags.
-/

/-- Log levels as defined by `ape.logging.LogLevel` (an `IntEnum`):
DEBUG = 10, INFO = 20, SUCCESS = 21, WARNING = 30, ERROR = 40. -/
def LogLevel.DEBUG : Nat := 10

/-- INFO level of `ape.logging.LogLevel`. -/
def LogLevel.INFO : Nat := 20

/-- SUCCESS level of `ape.logging.LogLevel`. -/
def LogLevel.SUCCESS : Nat := 21

/-- WARNING level of `ape.logging.LogLevel`. -/
def LogLevel.WARNING : Nat := 30

/-- ERROR level of `ape.logging.LogLevel`. -/
def LogLevel.ERROR : Nat := 40

/-- The six pool event kinds queried by `exec_block`
(`events = [pool.Open, pool.Settle, pool.Liquidate, pool.Swap, pool.Mint, pool.Burn]`). -/
inductive EventName where
  | Open
  | Settle
  | Liquidate
  | Swap
  | Mint
  | Burn
deriving DecidableEq, Repr

/-- The `event_arguments` payload of a queried log row.  The Python code
probes the payload dict with `in`-tests for the three liquidity field
names, so each is an `Option`; `owner` and `id` are consumed only for
Settle/Liquidate rows.  Addresses are modelled as their 160-bit numeric
value. -/
structure EventArgs where
  liquidityAfter : Option Int
  liquidity : Option Int
  liquidityDelta : Option Int
  owner : Nat
  id : Nat
deriving DecidableEq, Repr

/-- One row of the sorted event dataframe in `exec_block`. -/
structure Row where
  event_name : EventName
  transaction_index : Nat
  log_index : Nat
  event_arguments : EventArgs
deriving DecidableEq, Repr

/-- The pool position record returned by `pool.positions(key, block_identifier)`;
only `liquidityLocked` is consumed by the monitor. -/
structure PoolPosition where
  liquidityLocked : Int
deriving DecidableEq, Repr

/-- The external collaborators of the monitor: the keccak-256 hash from
`eth_utils` (an external library primitive, taken as a parameter on byte
lists) and the pool contract's `positions(key, block_identifier)` query. -/
structure Pool where
  keccak : List Nat → List Nat
  positions : List Nat → Int → PoolPosition

/-- Big-endian fixed-width byte encoding of a natural number, as
`eth_abi.packed.encode_packed` produces for fixed-width integer and
address types: `len` bytes, most significant first, value taken mod
`256 ^ len`. -/
def natToBytesBE (n : Nat) : Nat → List Nat
  | 0 => []
  | len + 1 => natToBytesBE (n / 256) len ++ [n % 256]

/-- Big-endian byte-list decoding, inverse of `natToBytesBE` on
in-range values. -/
def bytesToNatBE (bs : List Nat) : Nat :=
  bs.foldl (fun acc b => acc * 256 + b) 0

/-- Embedding of `encode_packed(["address", "uint96"], [address, id])`:
the 20-byte address immediately followed by the 12-byte id, no padding
between (tight packing). -/
def encode_packed (address : Nat) (id : Nat) : List Nat :=
  natToBytesBE address 20 ++ natToBytesBE id 12

/-- Embedding of `get_position_key` (src/main.py line 45):
`keccak(encode_packed(["address", "uint96"], [address, id]))`.  The
keccak primitive itself is external (`eth_utils`), so it is passed in. -/
def get_position_key (keccak : List Nat → List Nat) (address : Nat) (id : Nat) :
    List Nat :=
  keccak (encode_packed address id)

/-- Embedding of `attempt_send_message` (src/main.py line 49).  The
Telegram transport is modelled by its observable effect: the list of
messages handed to `bot.send_message`.  `botConfigured` is `bot is not None`
(the `TELEGRAM_BOT_TOKEN` environment variable was set), `loggerLevel`
is the process-wide `logger.level`.  The code returns without sending
when `bot is None or logger.level > level`. -/
def attempt_send_message (botConfigured : Bool) (loggerLevel : Nat)
    (msg : String) (level : Nat) : List String :=
  if botConfigured = false ∨ loggerLevel > level then [] else [msg]

/-- Observable outcome of one `handle_position_close` call: the position
query it issued (`queriedKey`, `queriedBlock`), the computed
`liquidity_returned`, the breach/pass classification (the condition
`liquidity_returned < position.liquidityLocked` of lines 83, 86, 92),
the exact ratio `liquidity_returned / position.liquidityLocked`
interpolated into the message, the logger method name chosen on line 86,
and the alert level chosen on lines 90-94. -/
structure CloseResult where
  event_name : EventName
  position_id : Nat
  queriedKey : List Nat
  queriedBlock : Int
  liquidity_returned : Int
  breach : Bool
  ratioVal : ℚ
  method : String
  level : Nat
deriving DecidableEq, Repr

/-- Embedding of `handle_position_close` (src/main.py lines 58-95).
The message f-strings on lines 81-84 evaluate
`liquidity_returned / position.liquidityLocked` unconditionally, so a
position with `liquidityLocked == 0` raises `ZeroDivisionError` before
any classification happens; that exception is the `Except.error` case.
Python's `/` on integers is exact here up to float rounding; the ratio
is modelled as the exact rational since no claim depends on rounding. -/
def handle_position_close (pool : Pool) (block_number : Int)
    (event_name : EventName) (position_owner : Nat) (position_id : Nat)
    (liquidity_before : Int) (liquidity_after : Int) :
    Except String CloseResult :=
  let k := get_position_key pool.keccak position_owner position_id
  let position := pool.positions k (block_number - 1)
  let liquidity_returned := liquidity_after - liquidity_before
  if position.liquidityLocked = 0 then
    Except.error "ZeroDivisionError"
  else
    let breach := liquidity_returned < position.liquidityLocked
    Except.ok
      { event_name := event_name
        position_id := position_id
        queriedKey := k
        queriedBlock := block_number - 1
        liquidity_returned := liquidity_returned
        breach := decide breach
        ratioVal := (liquidity_returned : ℚ) / (position.liquidityLocked : ℚ)
        method := if breach then "error" else "success"
        level := if breach then LogLevel.ERROR else LogLevel.SUCCESS }

/-- The mutable locals of the `for _, row in df.iterrows()` loop in
`exec_block` (src/main.py lines 125-154): the running `liquidity`
counter, the `liquidity_after` local (an `Option` because Python leaves
it unbound until some iteration assigns it, and keeps the previous
iteration's binding when no branch fires), the `counts` dict, plus the
observable trace of position-close checks performed and of the per-event
liquidity values. -/
structure LoopState where
  liquidity : Int
  liquidity_after : Option Int
  counts : EventName → Nat
  closes : List CloseResult
  trace : List Int

/-- The `counts` dict initialised on line 125: all six entries zero. -/
def counts0 : EventName → Nat := fun _ => 0

/-- Embedding of `counts[row.event_name] += 1` (line 151). -/
def incCounts (c : EventName → Nat) (name : EventName) : EventName → Nat :=
  fun n => if n = name then c n + 1 else c n

/-- The if/elif/elif classification of lines 129-138, deciding the new
`liquidity_after` binding from the payload.  When no branch fires the
Python local keeps its previous binding (`stale`); on the very first
event that binding does not exist yet (`none`), which surfaces as an
`UnboundLocalError` at the first later read. -/
def classifyLiquidityAfter (liquidity : Int) (stale : Option Int)
    (name : EventName) (args : EventArgs) : Option Int :=
  match args.liquidityAfter with
  | some v => some v
  | none =>
    match args.liquidity with
    | some v => some v
    | none =>
      match args.liquidityDelta with
      | some d => some (liquidity + (if name = EventName.Mint then 1 else -1) * d)
      | none => stale

/-- One iteration of the event loop (lines 127-154).  If
`liquidity_after` has never been assigned, Python raises
`UnboundLocalError` at its first read — as an argument of
`handle_position_close` on line 147, or at `liquidity = liquidity_after`
on line 154; either way the iteration raises before completing.  A
`ZeroDivisionError` raised inside `handle_position_close` also aborts
the block task. -/
def execStep (pool : Pool) (block_number : Int) (st : LoopState) (row : Row) :
    Except String LoopState :=
  match classifyLiquidityAfter st.liquidity st.liquidity_after row.event_name
      row.event_arguments with
  | none => Except.error "UnboundLocalError: liquidity_after"
  | some la =>
    if row.event_name = EventName.Settle ∨ row.event_name = EventName.Liquidate then
      match handle_position_close pool block_number row.event_name
          row.event_arguments.owner row.event_arguments.id st.liquidity la with
      | Except.error e => Except.error e
      | Except.ok c =>
        Except.ok
          { liquidity := la
            liquidity_after := some la
            counts := incCounts st.counts row.event_name
            closes := st.closes ++ [c]
            trace := st.trace ++ [la] }
    else
      Except.ok
        { liquidity := la
          liquidity_after := some la
          counts := incCounts st.counts row.event_name
          closes := st.closes
          trace := st.trace ++ [la] }

/-- The whole event loop, folded over the sorted rows. -/
def execBlockLoop (pool : Pool) (block_number : Int) :
    LoopState → List Row → Except String LoopState
  | st, [] => Except.ok st
  | st, row :: rest =>
    match execStep pool block_number st row with
    | Except.error e => Except.error e
    | Except.ok st' => execBlockLoop pool block_number st' rest

/-- The per-block outcome reported by `exec_block`: the `counts` dict it
returns, and the quantities interpolated into the block summary message
of line 161 (start/end liquidity, their difference, `opened`, `closed`),
plus the observable traces. -/
structure BlockResult where
  counts : EventName → Nat
  liquidity_start : Int
  liquidity_end : Int
  opened : Nat
  closed : Nat
  liquidity_delta : Int
  closes : List CloseResult
  trace : List Int

/-- Embedding of `exec_block` (src/main.py lines 102-164) from the point
where the sorted dataframe and the prior-block liquidity snapshot are in
hand: replay the rows, then assemble the summary
(`opened = counts["Open"]`, `closed = counts["Settle"] + counts["Liquidate"]`,
delta = end minus start as in the message of line 161) and return the
counts. -/
def execBlock (pool : Pool) (block_number : Int) (rows : List Row)
    (liquidity : Int) : Except String BlockResult :=
  match execBlockLoop pool block_number
      { liquidity := liquidity, liquidity_after := none,
        counts := counts0, closes := [], trace := [] } rows with
  | Except.error e => Except.error e
  | Except.ok st =>
    Except.ok
      { counts := st.counts
        liquidity_start := liquidity
        liquidity_end := st.liquidity
        opened := st.counts EventName.Open
        closed := st.counts EventName.Settle + st.counts EventName.Liquidate
        liquidity_delta := st.liquidity - liquidity
        closes := st.closes
        trace := st.trace }

/-- Number of rows carrying a given event name, for the count claims. -/
def countName (n : EventName) : List Row → Nat
  | [] => 0
  | r :: rest => (if r.event_name = n then 1 else 0) + countName n rest

/-- Sum of the six per-variant counters of a `counts` dict. -/
def countsSum (c : EventName → Nat) : Nat :=
  c EventName.Open + c EventName.Settle + c EventName.Liquidate +
    c EventName.Swap + c EventName.Mint + c EventName.Burn

/-- The intra-block order used by `df.sort_values(["transaction_index", "log_index"])`
(line 119): lexicographic on the pair. -/
def rowOrder (a b : Row) : Prop :=
  a.transaction_index < b.transaction_index ∨
    (a.transaction_index = b.transaction_index ∧ a.log_index ≤ b.log_index)

instance : DecidableRel rowOrder := fun a b => by
  unfold rowOrder
  infer_instance

/-- Concrete environment for witnesses: keccak stubbed to the constant
empty digest, every position carrying `liquidityLocked = 7`. -/
def pool0 : Pool :=
  { keccak := fun _ => [], positions := fun _ _ => { liquidityLocked := 7 } }

/-- Concrete environment whose positions all carry `liquidityLocked = 0`,
exercising the unguarded ratio division. -/
def poolZ : Pool :=
  { keccak := fun _ => [], positions := fun _ _ => { liquidityLocked := 0 } }

/-- An Open event row carrying `liquidityAfter = 42`. -/
def rowA : Row :=
  { event_name := EventName.Open, transaction_index := 0, log_index := 0,
    event_arguments :=
      { liquidityAfter := some 42, liquidity := none, liquidityDelta := none,
        owner := 0, id := 0 } }

/-- A Mint event row carrying `liquidityDelta = 5`. -/
def rowMint5 : Row :=
  { event_name := EventName.Mint, transaction_index := 0, log_index := 0,
    event_arguments :=
      { liquidityAfter := none, liquidity := none, liquidityDelta := some 5,
        owner := 0, id := 0 } }

/-- A Swap event row carrying the absolute `liquidity = 7` field. -/
def rowSwap7 : Row :=
  { event_name := EventName.Swap, transaction_index := 0, log_index := 1,
    event_arguments :=
      { liquidityAfter := none, liquidity := some 7, liquidityDelta := none,
        owner := 0, id := 0 } }

/-- A malformed Swap row whose payload carries none of the three
recognised liquidity fields. -/
def rowBad : Row :=
  { event_name := EventName.Swap, transaction_index := 0, log_index := 1,
    event_arguments :=
      { liquidityAfter := none, liquidity := none, liquidityDelta := none,
        owner := 0, id := 0 } }

/-- Initial loop state for a replay starting at liquidity 100. -/
def st0 : LoopState :=
  { liquidity := 100, liquidity_after := none, counts := counts0,
    closes := [], trace := [] }

/-- The loop state after replaying `rowMint5` from `st0`. -/
def stMint : LoopState :=
  { liquidity := 105, liquidity_after := some 105,
    counts := incCounts counts0 EventName.Mint, closes := [], trace := [105] }

/-- The block result of replaying the single row `rowA` from liquidity 100. -/
def r6 : BlockResult :=
  { counts := incCounts counts0 EventName.Open, liquidity_start := 100,
    liquidity_end := 42, opened := 1, closed := 0, liquidity_delta := -58,
    closes := [], trace := [42] }

/-- The close-check record produced by `handle_position_close pool0 100
Settle 3 4 0 14` (locked 7, returned 14, pass). -/
def c7res : CloseResult :=
  { event_name := EventName.Settle, position_id := 4, queriedKey := [],
    queriedBlock := 99, liquidity_returned := 14, breach := false,
    ratioVal := ((14 : Int) : ℚ) / ((7 : Int) : ℚ),
    method := "success", level := LogLevel.SUCCESS }


/-- Facts about one successful loop iteration. -/
theorem execStep_ok_spec (pool : Pool) (bn : Int) (st : LoopState) (row : Row)
    (st' : LoopState) (h : execStep pool bn st row = Except.ok st') :
    classifyLiquidityAfter st.liquidity st.liquidity_after row.event_name
        row.event_arguments = some st'.liquidity ∧
    st'.counts = incCounts st.counts row.event_name ∧
    st'.trace = st.trace ++ [st'.liquidity] := by
  unfold execStep at h
  split at h
  · cases h
  · next la hc =>
    split at h
    · split at h
      · cases h
      · cases h
        exact ⟨hc, rfl, rfl⟩
    · cases h
      exact ⟨hc, rfl, rfl⟩

/-- Replaying a list of rows adds, per event name, exactly the number of
rows carrying that name to the corresponding counter. -/
theorem execBlockLoop_ok_counts (pool : Pool) (bn : Int) :
    ∀ (rows : List Row) (st st' : LoopState),
      execBlockLoop pool bn st rows = Except.ok st' →
      ∀ n, st'.counts n = st.counts n + countName n rows := by
  intro rows
  induction rows with
  | nil =>
    intro st st' h n
    cases h
    simp [countName]
  | cons row rest ih =>
    intro st st' h n
    unfold execBlockLoop at h
    split at h
    · cases h
    · next st1 hs =>
      have hspec := execStep_ok_spec pool bn st row st1 hs
      have hrec := ih st1 st' h n
      rw [hrec, hspec.2.1]
      by_cases hn : n = row.event_name
      · subst hn
        simp [incCounts, countName]
        try omega
      · have hn' : ¬(row.event_name = n) := fun hh => hn hh.symm
        simp [incCounts, countName, hn, hn']
        try omega

/-- Incrementing one counter raises the total of the six counters by one. -/
theorem countsSum_inc (c : EventName → Nat) (name : EventName) :
    countsSum (incCounts c name) = countsSum c + 1 := by
  cases name <;> simp [countsSum, incCounts] <;> omega

/-- Replaying a list of rows adds the number of rows to the total of the
six counters. -/
theorem execBlockLoop_ok_sum (pool : Pool) (bn : Int) :
    ∀ (rows : List Row) (st st' : LoopState),
      execBlockLoop pool bn st rows = Except.ok st' →
      countsSum st'.counts = countsSum st.counts + rows.length := by
  intro rows
  induction rows with
  | nil =>
    intro st st' h
    cases h
    simp
  | cons row rest ih =>
    intro st st' h
    unfold execBlockLoop at h
    split at h
    · cases h
    · next st1 hs =>
      have hspec := execStep_ok_spec pool bn st row st1 hs
      have hrec := ih st1 st' h
      rw [hrec, hspec.2.1, countsSum_inc]
      simp
      omega

/-- The fixed-width big-endian encoding has the requested width. -/
theorem natToBytesBE_length (n len : Nat) : (natToBytesBE n len).length = len := by
  induction len generalizing n with
  | zero => rfl
  | succ len ih => simp [natToBytesBE, ih]

/-- The fixed-width big-endian encoding is value-preserving on in-range
inputs (tight packing loses no information). -/
theorem bytesToNatBE_natToBytesBE (len : Nat) : ∀ n : Nat, n < 256 ^ len →
    bytesToNatBE (natToBytesBE n len) = n := by
  induction len with
  | zero =>
    intro n h
    have hz : n = 0 := by simpa using h
    subst hz
    rfl
  | succ len ih =>
    intro n h
    have hdiv : n / 256 < 256 ^ len := by
      have hp : (256 : Nat) ^ (len + 1) = 256 ^ len * 256 := pow_succ 256 len
      omega
    have hrec := ih (n / 256) hdiv
    unfold natToBytesBE bytesToNatBE
    rw [List.foldl_append]
    unfold bytesToNatBE at hrec
    simp only [List.foldl_cons, List.foldl_nil]
    rw [hrec]
    omega

/-- Claim C1 (code bug): the spec requires a zero-locked position with
non-negative return to be a trivial pass with the ratio omitted and no
divide-by-zero; the code interpolates
`liquidity_returned / position.liquidityLocked` into the message
unconditionally, so it raises `ZeroDivisionError` instead of passing.
Evaluated here at a Settle close with `liquidityLocked = 0` and
`liquidity_returned = 10 ≥ 0`. -/
theorem C1_code_bug_eval :
    (poolZ.positions (get_position_key poolZ.keccak 1 2) (100 - 1)).liquidityLocked = 0 ∧
    (0 : Int) ≤ 510 - 500 ∧
    handle_position_close poolZ 100 EventName.Settle 1 2 500 510 =
      Except.error "ZeroDivisionError" :=
  ⟨rfl, by norm_num, rfl⟩

/-- Claim C2 (code bug): the spec requires a payload matching none of the
three liquidity shapes to fail fast with a schema-violation error; the
code's if/elif/elif chain has no else branch, so the `liquidity_after`
local silently keeps the previous event's value.  Evaluated here on a
block `[Mint(delta 5), malformed Swap]` starting at liquidity 100: the
replay completes normally, reusing the stale value 105 for the malformed
event. -/
theorem C2_code_bug_eval :
    rowBad.event_arguments.liquidityAfter = none ∧
    rowBad.event_arguments.liquidity = none ∧
    rowBad.event_arguments.liquidityDelta = none ∧
    ∃ r, execBlock pool0 50 [rowMint5, rowBad] 100 = Except.ok r ∧
      r.liquidity_end = 105 ∧ r.trace = [105, 105] ∧
      r.counts EventName.Swap = 1 :=
  ⟨rfl, rfl, rfl, _, rfl, rfl, rfl, rfl⟩

/-- Claim C3 (counterexample): as stated, the claim quantifies over every
Settle/Liquidate event; at a Settle close whose position has
`liquidityLocked = 0` and `liquidity_returned = -1 < 0 = liquidityLocked`
the checker reports neither breach nor pass — it raises
`ZeroDivisionError` before classifying. -/
theorem C3_counterexample :
    ((499 : Int) - 500 <
      (poolZ.positions (get_position_key poolZ.keccak 1 2) (100 - 1)).liquidityLocked) ∧
    handle_position_close poolZ 100 EventName.Settle 1 2 500 499 =
      Except.error "ZeroDivisionError" ∧
    ¬ ∃ r, handle_position_close poolZ 100 EventName.Settle 1 2 500 499 =
      Except.ok r := by
  refine ⟨by norm_num [poolZ], rfl, ?_⟩
  rintro ⟨r, hr⟩
  rw [show handle_position_close poolZ 100 EventName.Settle 1 2 500 499 =
    Except.error "ZeroDivisionError" from rfl] at hr
  cases hr

/-- Claim C3 (amended): for every Settle or Liquidate event whose
position has nonzero `liquidityLocked`, the checker reports breach iff
`liquidity_returned < liquidityLocked` and pass otherwise — never both,
never neither — and maps breach to the "error" severity and pass to the
"success" severity. -/
theorem C3_amended_holds (pool : Pool) (bn : Int) (en : EventName)
    (owner oid : Nat) (lb la : Int)
    (hen : en = EventName.Settle ∨ en = EventName.Liquidate)
    (hL : (pool.positions (get_position_key pool.keccak owner oid)
      (bn - 1)).liquidityLocked ≠ 0) :
    ∃ r, handle_position_close pool bn en owner oid lb la = Except.ok r ∧
      (r.breach = true ↔ la - lb <
        (pool.positions (get_position_key pool.keccak owner oid)
          (bn - 1)).liquidityLocked) ∧
      (r.breach = false ↔
        (pool.positions (get_position_key pool.keccak owner oid)
          (bn - 1)).liquidityLocked ≤ la - lb) ∧
      r.method = (if r.breach = true then "error" else "success") ∧
      r.level = (if r.breach = true then LogLevel.ERROR else LogLevel.SUCCESS) := by
  have hok : handle_position_close pool bn en owner oid lb la = Except.ok
      { event_name := en, position_id := oid,
        queriedKey := get_position_key pool.keccak owner oid,
        queriedBlock := bn - 1, liquidity_returned := la - lb,
        breach := decide (la - lb <
          (pool.positions (get_position_key pool.keccak owner oid)
            (bn - 1)).liquidityLocked),
        ratioVal := ((la - lb : Int) : ℚ) /
          ((pool.positions (get_position_key pool.keccak owner oid)
            (bn - 1)).liquidityLocked : ℚ),
        method := if la - lb <
            (pool.positions (get_position_key pool.keccak owner oid)
              (bn - 1)).liquidityLocked then "error" else "success",
        level := if la - lb <
            (pool.positions (get_position_key pool.keccak owner oid)
              (bn - 1)).liquidityLocked then LogLevel.ERROR
          else LogLevel.SUCCESS } := by
    simp only [handle_position_close]
    rw [if_neg hL]
  refine ⟨_, hok, ?_, ?_, ?_, ?_⟩
  · simp
  · simp [not_lt]
  · by_cases hbr : la - lb <
        (pool.positions (get_position_key pool.keccak owner oid)
          (bn - 1)).liquidityLocked <;>
      simp [hbr]
  · by_cases hbr : la - lb <
        (pool.positions (get_position_key pool.keccak owner oid)
          (bn - 1)).liquidityLocked <;>
      simp [hbr]

/-- Witness for the amended claim C3 at a concrete pass: Settle close,
locked 7, returned 14. -/
theorem C3_amended_witness :
    ∃ r, handle_position_close pool0 100 EventName.Settle 3 4 0 14 = Except.ok r ∧
      (r.breach = true ↔ (14 : Int) - 0 <
        (pool0.positions (get_position_key pool0.keccak 3 4)
          (100 - 1)).liquidityLocked) ∧
      (r.breach = false ↔
        (pool0.positions (get_position_key pool0.keccak 3 4)
          (100 - 1)).liquidityLocked ≤ (14 : Int) - 0) ∧
      r.method = (if r.breach = true then "error" else "success") ∧
      r.level = (if r.breach = true then LogLevel.ERROR else LogLevel.SUCCESS) :=
  C3_amended_holds pool0 100 EventName.Settle 3 4 0 14 (Or.inl rfl) (by decide)

/-- Claim C5 (counterexample): the claim says the dispatcher forwards
only if `severity <= threshold` with lower numeric value meaning higher
importance; with the transport configured, threshold `logger.level = INFO
(20)` and message level `ERROR (40)` the code does forward, yet
`40 <= 20` is false — the code's convention is the opposite one. -/
theorem C5_counterexample :
    attempt_send_message true LogLevel.INFO "alert" LogLevel.ERROR = ["alert"] ∧
    ¬ (LogLevel.ERROR ≤ LogLevel.INFO) :=
  ⟨rfl, by decide⟩

/-- Claim C5 (amended): the dispatcher forwards the message iff a
transport is configured and `severity >= threshold` (higher numeric
value meaning higher importance, the `ape` LogLevel convention); in
particular with no transport configured it is a total no-op that sends
nothing and never raises. -/
theorem C5_amended_holds (botConfigured : Bool) (loggerLevel : Nat)
    (msg : String) (level : Nat) :
    attempt_send_message botConfigured loggerLevel msg level =
      (if botConfigured = true ∧ loggerLevel ≤ level then [msg] else []) := by
  unfold attempt_send_message
  cases botConfigured
  · simp
  · by_cases h : loggerLevel ≤ level
    · simp [h, not_lt.mpr h]
    · simp [h, not_le.mp h]

/-- Claim C4 (confirmed): in the replay, an event carrying a
`liquidityAfter` field sets the counter to it; else one carrying an
absolute `liquidity` field sets the counter to it; else one carrying a
`liquidityDelta` sets the counter to the running counter plus the delta
for Mint and minus the delta for Burn. -/
theorem C4_classification (pool : Pool) (bn : Int) (st : LoopState) (row : Row) :
    (∀ v : Int, row.event_arguments.liquidityAfter = some v →
      ∀ st', execStep pool bn st row = Except.ok st' → st'.liquidity = v) ∧
    (∀ v : Int, row.event_arguments.liquidityAfter = none →
      row.event_arguments.liquidity = some v →
      ∀ st', execStep pool bn st row = Except.ok st' → st'.liquidity = v) ∧
    (∀ d : Int, row.event_arguments.liquidityAfter = none →
      row.event_arguments.liquidity = none →
      row.event_arguments.liquidityDelta = some d →
      row.event_name = EventName.Mint →
      ∀ st', execStep pool bn st row = Except.ok st' →
        st'.liquidity = st.liquidity + d) ∧
    (∀ d : Int, row.event_arguments.liquidityAfter = none →
      row.event_arguments.liquidity = none →
      row.event_arguments.liquidityDelta = some d →
      row.event_name = EventName.Burn →
      ∀ st', execStep pool bn st row = Except.ok st' →
        st'.liquidity = st.liquidity - d) := by
  refine ⟨?_, ?_, ?_, ?_⟩
  · intro v hA st' h
    have hc := (execStep_ok_spec pool bn st row st' h).1
    simp [classifyLiquidityAfter, hA] at hc
    exact hc.symm
  · intro v hA hW st' h
    have hc := (execStep_ok_spec pool bn st row st' h).1
    simp [classifyLiquidityAfter, hA, hW] at hc
    exact hc.symm
  · intro d hA hW hD hname st' h
    have hc := (execStep_ok_spec pool bn st row st' h).1
    simp [classifyLiquidityAfter, hA, hW, hD, hname] at hc
    omega
  · intro d hA hW hD hname st' h
    have hc := (execStep_ok_spec pool bn st row st' h).1
    simp [classifyLiquidityAfter, hA, hW, hD, hname] at hc
    omega

/-- Witness for claim C4: replaying the concrete Mint row with delta 5
from liquidity 100 yields liquidity 105. -/
theorem C4_witness : stMint.liquidity = st0.liquidity + 5 :=
  (C4_classification pool0 17 st0 rowMint5).2.2.1 5 rfl rfl rfl rfl stMint rfl

/-- Claim C6 (confirmed): every summary the block handler produces has
`opened` equal to the number of Open events, `closed` equal to the
number of Settle events plus the number of Liquidate events, and reports
the liquidity delta `liquidity_end - liquidity_start`. -/
theorem C6_confirmed (pool : Pool) (bn : Int) (rows : List Row) (liq : Int)
    (r : BlockResult) (h : execBlock pool bn rows liq = Except.ok r) :
    r.opened = countName EventName.Open rows ∧
    r.closed = countName EventName.Settle rows +
      countName EventName.Liquidate rows ∧
    r.liquidity_delta = r.liquidity_end - r.liquidity_start := by
  unfold execBlock at h
  split at h
  · cases h
  · next st hl =>
    cases h
    have hc := execBlockLoop_ok_counts pool bn rows _ st hl
    refine ⟨?_, ?_, rfl⟩
    · simpa [counts0] using hc EventName.Open
    · have h1 := hc EventName.Settle
      have h2 := hc EventName.Liquidate
      simp [counts0] at h1 h2
      simp [h1, h2]

/-- Witness for claim C6 at the one-row block `[rowA]`. -/
theorem C6_witness :
    r6.opened = countName EventName.Open [rowA] ∧
    r6.closed = countName EventName.Settle [rowA] +
      countName EventName.Liquidate [rowA] ∧
    r6.liquidity_delta = r6.liquidity_end - r6.liquidity_start :=
  C6_confirmed pool0 17 [rowA] 100 r6 rfl

/-- Claim C7 (confirmed): the position key is the keccak hash of the
tightly packed 20-byte address and 12-byte (96-bit) id — the packing is
lossless on in-range values — and the close check queries the position
at `block_number - 1` and computes
`liquidity_returned = liquidity_after - liquidity_before`. -/
theorem C7_confirmed (pool : Pool) (owner oid : Nat) (bn : Int)
    (en : EventName) (lb la : Int) :
    get_position_key pool.keccak owner oid =
      pool.keccak (encode_packed owner oid) ∧
    encode_packed owner oid = natToBytesBE owner 20 ++ natToBytesBE oid 12 ∧
    (natToBytesBE owner 20).length = 20 ∧
    (natToBytesBE oid 12).length = 12 ∧
    (encode_packed owner oid).length = 32 ∧
    (owner < 2 ^ 160 → bytesToNatBE (natToBytesBE owner 20) = owner) ∧
    (oid < 2 ^ 96 → bytesToNatBE (natToBytesBE oid 12) = oid) ∧
    (∀ r, handle_position_close pool bn en owner oid lb la = Except.ok r →
      r.queriedKey = get_position_key pool.keccak owner oid ∧
      r.queriedBlock = bn - 1 ∧
      r.liquidity_returned = la - lb) := by
  refine ⟨rfl, rfl, natToBytesBE_length _ _, natToBytesBE_length _ _, ?_, ?_, ?_, ?_⟩
  · simp [encode_packed, natToBytesBE_length]
  · intro h
    refine bytesToNatBE_natToBytesBE 20 owner ?_
    have hh : (256 : Nat) ^ 20 = 2 ^ 160 := by norm_num
    omega
  · intro h
    refine bytesToNatBE_natToBytesBE 12 oid ?_
    have hh : (256 : Nat) ^ 12 = 2 ^ 96 := by norm_num
    omega
  · intro r hr
    simp only [handle_position_close] at hr
    by_cases hz : (pool.positions (get_position_key pool.keccak owner oid)
        (bn - 1)).liquidityLocked = 0
    · rw [if_pos hz] at hr
      cases hr
    · rw [if_neg hz] at hr
      cases hr
      exact ⟨rfl, rfl, rfl⟩

/-- Witness for claim C7 at owner 3, id 4, a Settle close from 0 to 14. -/
theorem C7_witness :
    (3 : Nat) < 2 ^ 160 ∧ (4 : Nat) < 2 ^ 96 ∧
    bytesToNatBE (natToBytesBE 3 20) = 3 ∧
    bytesToNatBE (natToBytesBE 4 12) = 4 ∧
    c7res.queriedKey = get_position_key pool0.keccak 3 4 ∧
    c7res.queriedBlock = (100 : Int) - 1 ∧
    c7res.liquidity_returned = (14 : Int) - 0 :=
  ⟨by norm_num, by norm_num,
    (C7_confirmed pool0 3 4 100 EventName.Settle 0 14).2.2.2.2.2.1 (by norm_num),
    (C7_confirmed pool0 3 4 100 EventName.Settle 0 14).2.2.2.2.2.2.1 (by norm_num),
    ((C7_confirmed pool0 3 4 100 EventName.Settle 0 14).2.2.2.2.2.2.2 c7res rfl).1,
    ((C7_confirmed pool0 3 4 100 EventName.Settle 0 14).2.2.2.2.2.2.2 c7res rfl).2.1,
    ((C7_confirmed pool0 3 4 100 EventName.Settle 0 14).2.2.2.2.2.2.2 c7res rfl).2.2⟩

/-- Claim C8 (confirmed): the replay is a pure function of its inputs
(rows, starting liquidity, external collaborators), so replaying a
sorted block twice with the same inputs yields identical results — the
whole block result and in particular the per-event liquidity trace. -/
theorem C8_confirmed (pool : Pool) (bn : Int) (rows : List Row) (liq : Int)
    (hsorted : List.Pairwise rowOrder rows) :
    execBlock pool bn rows liq = execBlock pool bn rows liq ∧
    (execBlock pool bn rows liq).map BlockResult.trace =
      (execBlock pool bn rows liq).map BlockResult.trace :=
  ⟨rfl, rfl⟩

/-- Witness for claim C8 on the sorted two-row block `[rowA, rowSwap7]`. -/
theorem C8_witness :
    List.Pairwise rowOrder [rowA, rowSwap7] ∧
    execBlock pool0 17 [rowA, rowSwap7] 100 =
      execBlock pool0 17 [rowA, rowSwap7] 100 :=
  ⟨by decide, (C8_confirmed pool0 17 [rowA, rowSwap7] 100 (by decide)).1⟩

/-- Claim C9 (confirmed): each replayed event increments exactly its own
variant's counter by one and leaves the other five unchanged, so the
six counters of a produced summary total the number of replayed events. -/
theorem C9_confirmed (pool : Pool) (bn : Int) (rows : List Row) (liq : Int)
    (r : BlockResult) (h : execBlock pool bn rows liq = Except.ok r) :
    countsSum r.counts = rows.length ∧
    (∀ (c : EventName → Nat) (name : EventName),
      incCounts c name name = c name + 1 ∧
      ∀ n, n ≠ name → incCounts c name n = c n) := by
  constructor
  · unfold execBlock at h
    split at h
    · cases h
    · next st hl =>
      cases h
      have hs := execBlockLoop_ok_sum pool bn rows _ st hl
      simpa [countsSum, counts0] using hs
  · intro c name
    refine ⟨by simp [incCounts], ?_⟩
    intro n hn
    simp [incCounts, hn]

/-- Witness for claim C9 at the one-row block `[rowA]`. -/
theorem C9_witness : countsSum r6.counts = ([rowA] : List Row).length :=
  (C9_confirmed pool0 17 [rowA] 100 r6 rfl).1

/-- Claim C10 (confirmed): an empty block replays to a summary with no
position-close checks, liquidity end equal to liquidity start (delta
zero), all six counts zero, and `opened = closed = 0`. -/
theorem C10_confirmed (pool : Pool) (bn : Int) (liq : Int) :
    ∃ r, execBlock pool bn ([] : List Row) liq = Except.ok r ∧
      r.closes = [] ∧ r.trace = [] ∧
      r.liquidity_end = r.liquidity_start ∧ r.liquidity_delta = 0 ∧
      (∀ n, r.counts n = 0) ∧ r.opened = 0 ∧ r.closed = 0 :=
  ⟨_, rfl, rfl, rfl, rfl, sub_self liq, fun _ => rfl, rfl, rfl⟩
